import Mathlib

/-!
Shallow embedding of the patient-monitor simulation core:
  * `generator.py` — the streaming vitals generator `vitals_stream`
    (scalar synthesis with clamping, template waveform slicing via
    `np.roll`, duration-bounded termination);
  * `app.py` — the ICP-crisis scenario layer (trigger button handling and
    the 60-second override of five scalar fields on each pulled bundle).

Modelling conventions:
  * Python/NumPy floats used for times, scalar vitals and random draws are
    modelled as `ℚ` (every float value is a rational), which keeps the
    control flow (comparisons, clamps, rounding) decidable.
  * Waveform sample values involve `sin`/`exp` and are modelled as `ℝ`.
  * `rng.normal(mu, sigma)` is modelled as `mu + sigma * z`, where `z` is
    the next standard-normal draw supplied by the random source; a run's
    random source is an explicit draw sequence plus a cursor.
  * `np.round(x, 1)` / `round(x, 1)` round half to even; `round1` below
    implements that tie-breaking over `ℚ`.
-/

namespace Sim

/-! ### Waveform sample rates and template length (generator.py, module top) -/

def ECG_FS : ℕ := 250
def PLETH_FS : ℕ := 100
def RESP_FS : ℕ := 25
def ICP_FS : ℕ := 50
def BUFFER_SEC : ℕ := 5

/-! ### Waveform templates (generator.py, module top)

`np.linspace(0, BUFFER_SEC, FS * BUFFER_SEC, endpoint=False)` places sample
`k` at time `k / FS`; `t_icp = np.linspace(0, 1, ICP_FS, endpoint=False)`
places sample `k` at `k / ICP_FS`.  The ECG and pleth templates add
module-load noise `np.random.randn`, modelled as an ambient noise function.
The ECG spike loop writes `[0.2, 1.0, 0.2]` at indices
`beat*ECG_FS + ECG_FS/4 - 1 .. + 1` for `beat < BUFFER_SEC`; since the five
written windows are disjoint and interior, this equals the pointwise form
used here (spike at `k % ECG_FS ∈ {61, 62, 63}`). -/

noncomputable def ecg_template (ε : ℕ → ℝ) : List ℝ :=
  (List.range (ECG_FS * BUFFER_SEC)).map fun (k : ℕ) =>
    0.01 * ε k +
      (if k % ECG_FS = ECG_FS / 4 - 1 then 0.2
       else if k % ECG_FS = ECG_FS / 4 then 1.0
       else if k % ECG_FS = ECG_FS / 4 + 1 then 0.2
       else 0)

noncomputable def pleth_template (ε : ℕ → ℝ) : List ℝ :=
  (List.range (PLETH_FS * BUFFER_SEC)).map fun (k : ℕ) =>
    0.6 + 0.3 * Real.sin (2 * Real.pi * 1.2 * ((k : ℝ) / PLETH_FS)) + 0.01 * ε k

noncomputable def resp_template : List ℝ :=
  (List.range (RESP_FS * BUFFER_SEC)).map fun (k : ℕ) =>
    0.2 * Real.sin (2 * Real.pi * 0.25 * ((k : ℝ) / RESP_FS))

/-- One ICP pulse sample value at pulse-phase `x ∈ [0,1)`:
`12*exp(-((x-0.18)/0.04)^2) + 8*exp(-((x-0.45)/0.06)^2) + 4*exp(-((x-0.72)/0.05)^2)`
(the P1, P2, P3 Gaussian sub-peaks of generator.py). -/
noncomputable def icp_pulse_val (x : ℝ) : ℝ :=
  12 * Real.exp (-(((x - 0.18) / 0.04) ^ 2)) +
    8 * Real.exp (-(((x - 0.45) / 0.06) ^ 2)) +
    4 * Real.exp (-(((x - 0.72) / 0.05) ^ 2))

noncomputable def icp_pulse : List ℝ :=
  (List.range ICP_FS).map fun (k : ℕ) => icp_pulse_val ((k : ℝ) / ICP_FS)

/-- `icp_template = np.tile(icp_pulse, BUFFER_SEC)`. -/
noncomputable def icp_template : List ℝ :=
  (List.replicate BUFFER_SEC icp_pulse).flatten

/-- `np.roll(tmpl, -shift)[:r]`: rotate left by `shift`, keep the first `r`
samples.  (`np.roll` with a negative shift is a left rotation.) -/
def rollSlice (tmpl : List ℝ) (shift r : ℕ) : List ℝ :=
  (tmpl.rotate shift).take r

/-! ### Rounding and clamping -/

/-- Round to the nearest integer, ties to even (the behavior of Python's
`round` and `np.round`): on a tie `Int.fract y = 1/2` the even neighbour
`2 * round (y / 2)` is chosen. -/
def roundHalfEven (y : ℚ) : ℤ :=
  if Int.fract y = 1 / 2 then 2 * round (y / 2) else round y

/-- `round(x, 1)`: round to one decimal, half to even. -/
def round1 (x : ℚ) : ℚ :=
  (roundHalfEven (10 * x) : ℚ) / 10

/-- `np.clip(x, lo, hi) = min(hi, max(x, lo))`. -/
def clip (x lo hi : ℚ) : ℚ :=
  min hi (max x lo)

/-! ### Random source -/

/-- A seedable random source: the (infinite) sequence of standard-normal
draw outputs it will produce, plus the cursor of the next draw. -/
structure RNG where
  draws : ℕ → ℚ
  pos : ℕ

def RNG.next (g : RNG) : ℚ × RNG :=
  (g.draws g.pos, ⟨g.draws, g.pos + 1⟩)

/-- `rng.normal(mu, sigma)` modelled as `mu + sigma * z` on the next
standard-normal draw `z`. -/
def RNG.normal (g : RNG) (mu sigma : ℚ) : ℚ × RNG :=
  let p := g.next
  (mu + sigma * p.1, p.2)

/-! ### The sample bundle (the dict yielded by vitals_stream) -/

structure Bundle where
  elapsed_s : ℚ
  HR : ℚ
  SBP : ℚ
  DBP : ℚ
  RR : ℚ
  SpO2 : ℚ
  ICP : ℚ
  ECG : List ℝ
  PLETH : List ℝ
  RESP : List ℝ
  ICP_WAVE : List ℝ
deriving Inhabited

/-- Module-load noise of the ECG and pleth templates (`np.random.randn`
at import time of generator.py). -/
structure TemplateNoise where
  ecg : ℕ → ℝ
  pleth : ℕ → ℝ

/-! ### vitals_stream: loop body, generator state, pull interface -/

/-- One iteration body of `vitals_stream` at tick `i`: draw and clamp the
six scalars (in source order HR, SBP, DBP, RR, SpO2, ICP), slice the four
waveform templates at the rolling offsets, and yield the rounded record,
returning the advanced random source. -/
noncomputable def vitals_bundle (tn : TemplateNoise) (fs : ℚ) (i : ℕ) (g0 : RNG) :
    Bundle × RNG :=
  let step : ℚ := 1 / fs
  let t : ℚ := (i : ℚ) * step
  let n1 := g0.normal 0 1.5
  let hr := clip (92 + n1.1) 89 95
  let n2 := n1.2.normal 0 4
  let sbp := clip (127 + n2.1) 120 135
  let n3 := n2.2.normal 0 3
  let dbp := clip (85 + n3.1) 80 89
  let n4 := n3.2.normal 0 0.6
  let rr := clip (16 + n4.1) 14 18
  let n5 := n4.2.normal 0 0.3
  let spo2 := clip (97 + n5.1) 96 98
  let n6 := n5.2.normal 0 2
  let icp := clip (8.5 + n6.1) 5 12
  let shift_ecg := (i * ECG_FS) % (ecg_template tn.ecg).length
  let shift_ppg := (i * PLETH_FS) % (pleth_template tn.pleth).length
  let shift_rsp := (i * RESP_FS) % resp_template.length
  let shift_icp := (i * ICP_FS) % icp_template.length
  (⟨round1 t, round1 hr, round1 sbp, round1 dbp, round1 rr, round1 spo2, round1 icp,
      rollSlice (ecg_template tn.ecg) shift_ecg ECG_FS,
      rollSlice (pleth_template tn.pleth) shift_ppg PLETH_FS,
      rollSlice resp_template shift_rsp RESP_FS,
      rollSlice icp_template shift_icp ICP_FS⟩,
    n6.2)

structure GenState where
  i : ℕ
  g : RNG
  stopped : Bool

/-- The post-yield break test `if duration and t + step >= duration`:
Python truthiness makes `None` and `0` both skip the test. -/
def durStop (duration : Option ℤ) (t step : ℚ) : Bool :=
  match duration with
  | none => false
  | some d => decide (d ≠ 0 ∧ t + step ≥ (d : ℚ))

/-- One `next()` on the generator: `none` once the loop has broken,
otherwise the bundle for the current tick together with the advanced
state (tick index incremented, random source advanced, and the break
flag evaluated at this tick's `t`). -/
noncomputable def vitals_next (tn : TemplateNoise) (duration : Option ℤ) (fs : ℚ)
    (s : GenState) : Option (Bundle × GenState) :=
  if s.stopped then none
  else
    let step : ℚ := 1 / fs
    let t : ℚ := (s.i : ℚ) * step
    let p := vitals_bundle tn fs s.i s.g
    some (p.1, ⟨s.i + 1, p.2, durStop duration t step⟩)

/-- Generator state after `n` pulls (a pull on an exhausted stream leaves
the state unchanged). -/
noncomputable def vitals_state (tn : TemplateNoise) (duration : Option ℤ) (fs : ℚ)
    (g : RNG) : ℕ → GenState
  | 0 => ⟨0, g, false⟩
  | n + 1 =>
    match vitals_next tn duration fs (vitals_state tn duration fs g n) with
    | none => vitals_state tn duration fs g n
    | some p => p.2

/-- The `n`-th pull (0-based) on a fresh stream with random source `g`:
`some bundle`, or `none` for `EndOfStream`. -/
noncomputable def vitals_pull (tn : TemplateNoise) (duration : Option ℤ) (fs : ℚ)
    (g : RNG) (n : ℕ) : Option Bundle :=
  (vitals_next tn duration fs (vitals_state tn duration fs g n)).map Prod.fst

/-- The break test as seen at tick `j`. -/
def stopTick (duration : Option ℤ) (fs : ℚ) (j : ℕ) : Bool :=
  durStop duration ((j : ℚ) * (1 / fs)) (1 / fs)

/-! ### Scenario controller (app.py) -/

/-- The crisis state held in the dashboard session: the `icp_active` flag
and the wall-clock activation time `icp_timer`. -/
structure CrisisState where
  icp_active : Bool
  icp_timer : ℚ

/-- The ICP-crisis button handler (`if icp_btn and st.session_state.running`):
while the stream is running, set `icp_active` and record the current time;
otherwise do nothing. -/
def trigger_crisis (running : Bool) (now : ℚ) (s : CrisisState) : CrisisState :=
  if running then ⟨true, now⟩ else s

/-- The standard-normal draws consumed by one crisis override
(`np.random.normal` calls in source order HR, SBP, DBP, ICP, SpO2). -/
structure CrisisDraws where
  hr : ℚ
  sbp : ℚ
  dbp : ℚ
  icp : ℚ
  spo2 : ℚ

/-- The per-pull ICP-override block of app.py: while `icp_active` and at
most 60 seconds past `icp_timer`, replace the five scalars with Gaussian
crisis samples; past 60 seconds, clear `icp_active` and leave the row
untouched. -/
def icp_override (s : CrisisState) (now : ℚ) (z : CrisisDraws) (row : Bundle) :
    CrisisState × Bundle :=
  if s.icp_active then
    if now - s.icp_timer ≤ 60 then
      (s,
        { row with
          HR := 34 + 0.5 * z.hr
          SBP := 190 + 3 * z.sbp
          DBP := 105 + 2 * z.dbp
          ICP := 45 + 1 * z.icp
          SpO2 := 98 + 0.2 * z.spo2 })
    else (⟨false, s.icp_timer⟩, row)
  else (s, row)

/-! ### Spec-side definitions used to state the claims -/

/-- Modelled from the spec: the modular-offset read of a one-second slice —
sample `j` is `template[(i * r + j) mod template_length]`. -/
def modSlice (tmpl : List ℝ) (i r : ℕ) : List ℝ :=
  (List.range r).map fun j => tmpl.getD ((i * r + j) % tmpl.length) 0

/-- The maximum sample of `w` occurs at an index in `[lo, hi]`: some index
there dominates every sample of `w`.  The P1/P2/P3 sub-intervals of the
one-second 50-sample ICP pulse are its thirds: P1 = `[0,16]`,
P2 = `[17,33]`, P3 = `[34,49]` (containing the 0.18 s, 0.45 s, 0.72 s
sub-peak centers respectively). -/
def maxIn (w : List ℝ) (lo hi : ℕ) : Prop :=
  ∃ m, lo ≤ m ∧ m ≤ hi ∧ ∀ j < w.length, w.getD j 0 ≤ w.getD m 0

/-! ### Concrete inputs for witnesses and counterexamples -/

def rng0 : RNG := ⟨fun _ => 0, 0⟩
def rng1 : RNG := ⟨fun _ => 1, 0⟩
def tn0 : TemplateNoise := ⟨fun _ => 0, fun _ => 0⟩
def z0 : CrisisDraws := ⟨0, 0, 0, 0, 0⟩

/-- The bundle of the third pull (tick 2) on an unbounded unit-rate stream
with the all-zero draw source. -/
noncomputable def bundle0 : Bundle :=
  (vitals_pull tn0 none 1 rng0 2).getD default

/-! ### Template lengths and slice lengths -/

lemma ecg_template_length (ε : ℕ → ℝ) : (ecg_template ε).length = 1250 := by
  simp [ecg_template, ECG_FS, BUFFER_SEC]

lemma pleth_template_length (ε : ℕ → ℝ) : (pleth_template ε).length = 500 := by
  simp [pleth_template, PLETH_FS, BUFFER_SEC]

lemma resp_template_length : resp_template.length = 125 := by
  simp [resp_template, RESP_FS, BUFFER_SEC]

lemma icp_pulse_length : icp_pulse.length = 50 := by
  simp [icp_pulse, ICP_FS]

lemma icp_template_length : icp_template.length = 250 := by
  simp [icp_template, icp_pulse_length, BUFFER_SEC]

lemma rollSlice_length (tmpl : List ℝ) (shift r : ℕ) (h : r ≤ tmpl.length) :
    (rollSlice tmpl shift r).length = r := by
  simp [rollSlice, List.length_rotate, h]

/-! ### Rounding bounds -/

lemma roundHalfEven_abs (y : ℚ) : |(roundHalfEven y : ℚ) - y| ≤ 1 / 2 := by
  unfold roundHalfEven
  split
  case isTrue h =>
    have hy : y = (⌊y⌋ : ℚ) + 1 / 2 := by
      have := Int.floor_add_fract y
      rw [h] at this
      linarith
    rcases Int.even_or_odd ⌊y⌋ with ⟨m, hm⟩ | ⟨m, hm⟩
    · have hy2 : y / 2 = (m : ℚ) + 1 / 4 := by
        rw [hy, hm]; push_cast; ring
      have hr : round (y / 2) = m := by
        rw [hy2, round_int_add]
        norm_num [round_eq]
      rw [hr, hy, hm]
      push_cast
      rw [abs_le]
      constructor <;> linarith
    · have hy2 : y / 2 = (m : ℚ) + 3 / 4 := by
        rw [hy, hm]; push_cast; ring
      have hr : round (y / 2) = m + 1 := by
        rw [hy2, round_int_add]
        norm_num [round_eq]
      rw [hr, hy, hm]
      push_cast
      rw [abs_le]
      constructor <;> linarith
  case isFalse h =>
    rw [abs_sub_comm]
    exact abs_sub_round y

lemma round1_mem {x : ℚ} {a b : ℤ} (h1 : (a : ℚ) ≤ x) (h2 : x ≤ (b : ℚ)) :
    (a : ℚ) ≤ round1 x ∧ round1 x ≤ (b : ℚ) := by
  have habs := roundHalfEven_abs (10 * x)
  rw [abs_le] at habs
  have hlow : ((10 * a : ℤ) : ℚ) - 1 < (roundHalfEven (10 * x) : ℚ) := by
    push_cast
    linarith
  have hhigh : (roundHalfEven (10 * x) : ℚ) < ((10 * b : ℤ) : ℚ) + 1 := by
    push_cast
    linarith
  have hlo : (10 * a : ℤ) ≤ roundHalfEven (10 * x) := by
    have : (10 * a : ℤ) - 1 < roundHalfEven (10 * x) := by exact_mod_cast hlow
    omega
  have hhi : roundHalfEven (10 * x) ≤ (10 * b : ℤ) := by
    have : roundHalfEven (10 * x) < (10 * b : ℤ) + 1 := by exact_mod_cast hhigh
    omega
  have hlo' : ((10 * a : ℤ) : ℚ) ≤ (roundHalfEven (10 * x) : ℚ) := by exact_mod_cast hlo
  have hhi' : (roundHalfEven (10 * x) : ℚ) ≤ ((10 * b : ℤ) : ℚ) := by exact_mod_cast hhi
  unfold round1
  push_cast at hlo' hhi' ⊢
  constructor <;> linarith

lemma clip_mem {x lo hi : ℚ} (h : lo ≤ hi) : lo ≤ clip x lo hi ∧ clip x lo hi ≤ hi := by
  unfold clip
  constructor
  · exact le_min h (le_max_right x lo)
  · exact min_le_left hi _

lemma round1_clip_mem (x : ℚ) (a b : ℤ) (h : (a : ℚ) ≤ (b : ℚ)) :
    (a : ℚ) ≤ round1 (clip x a b) ∧ round1 (clip x a b) ≤ (b : ℚ) := by
  have hc := clip_mem (x := x) h
  exact round1_mem hc.1 hc.2

lemma round1_clip_lo (x : ℚ) (a b : ℤ) (h : (a : ℚ) ≤ (b : ℚ)) :
    (a : ℚ) ≤ round1 (clip x a b) :=
  (round1_clip_mem x a b h).1

lemma round1_clip_hi (x : ℚ) (a b : ℤ) (h : (a : ℚ) ≤ (b : ℚ)) :
    round1 (clip x a b) ≤ (b : ℚ) :=
  (round1_clip_mem x a b h).2

lemma round1_natCast (n : ℕ) : round1 (n : ℚ) = n := by
  have hcast : (10 : ℚ) * n = ((10 * n : ℤ) : ℚ) := by push_cast; ring
  unfold round1 roundHalfEven
  rw [hcast, Int.fract_intCast, round_intCast]
  norm_num

/-! ### Baseline scalar ranges of every generated bundle -/

lemma vitals_bundle_scalars (tn : TemplateNoise) (fs : ℚ) (i : ℕ) (g0 : RNG) :
    (89 ≤ (vitals_bundle tn fs i g0).1.HR ∧ (vitals_bundle tn fs i g0).1.HR ≤ 95) ∧
    (120 ≤ (vitals_bundle tn fs i g0).1.SBP ∧ (vitals_bundle tn fs i g0).1.SBP ≤ 135) ∧
    (80 ≤ (vitals_bundle tn fs i g0).1.DBP ∧ (vitals_bundle tn fs i g0).1.DBP ≤ 89) ∧
    (14 ≤ (vitals_bundle tn fs i g0).1.RR ∧ (vitals_bundle tn fs i g0).1.RR ≤ 18) ∧
    (96 ≤ (vitals_bundle tn fs i g0).1.SpO2 ∧ (vitals_bundle tn fs i g0).1.SpO2 ≤ 98) ∧
    (5 ≤ (vitals_bundle tn fs i g0).1.ICP ∧ (vitals_bundle tn fs i g0).1.ICP ≤ 12) := by
  simp only [vitals_bundle]
  refine ⟨⟨?_, ?_⟩, ⟨?_, ?_⟩, ⟨?_, ?_⟩, ⟨?_, ?_⟩, ⟨?_, ?_⟩, ⟨?_, ?_⟩⟩
  · exact_mod_cast round1_clip_lo _ 89 95 (by norm_num)
  · exact_mod_cast round1_clip_hi _ 89 95 (by norm_num)
  · exact_mod_cast round1_clip_lo _ 120 135 (by norm_num)
  · exact_mod_cast round1_clip_hi _ 120 135 (by norm_num)
  · exact_mod_cast round1_clip_lo _ 80 89 (by norm_num)
  · exact_mod_cast round1_clip_hi _ 80 89 (by norm_num)
  · exact_mod_cast round1_clip_lo _ 14 18 (by norm_num)
  · exact_mod_cast round1_clip_hi _ 14 18 (by norm_num)
  · exact_mod_cast round1_clip_lo _ 96 98 (by norm_num)
  · exact_mod_cast round1_clip_hi _ 96 98 (by norm_num)
  · exact_mod_cast round1_clip_lo _ 5 12 (by norm_num)
  · exact_mod_cast round1_clip_hi _ 5 12 (by norm_num)

/-! ### Generator state machine lemmas -/

lemma vitals_state_i_or_stopped (tn : TemplateNoise) (dur : Option ℤ) (fs : ℚ) (g : RNG) :
    ∀ n, (vitals_state tn dur fs g n).stopped = true ∨ (vitals_state tn dur fs g n).i = n := by
  intro n
  induction n with
  | zero => right; rfl
  | succ n ih =>
    by_cases h : (vitals_state tn dur fs g n).stopped = true
    · left
      simp [vitals_state, vitals_next, h]
    · right
      simp [vitals_state, vitals_next, h]
      rcases ih with h' | h'
      · exact absurd h' h
      · exact h'

lemma vitals_state_stopped_iff (tn : TemplateNoise) (dur : Option ℤ) (fs : ℚ) (g : RNG) :
    ∀ n, ((vitals_state tn dur fs g n).stopped = true ↔ ∃ j < n, stopTick dur fs j = true) := by
  intro n
  induction n with
  | zero => simp [vitals_state]
  | succ n ih =>
    by_cases h : (vitals_state tn dur fs g n).stopped = true
    · have hstep : (vitals_state tn dur fs g (n + 1)).stopped = true := by
        simp [vitals_state, vitals_next, h]
      rw [hstep]
      simp only [true_iff]
      obtain ⟨j, hj, hsj⟩ := ih.mp h
      exact ⟨j, Nat.lt_succ_of_lt hj, hsj⟩
    · have hi : (vitals_state tn dur fs g n).i = n :=
        (vitals_state_i_or_stopped tn dur fs g n).resolve_left h
      have hstep : (vitals_state tn dur fs g (n + 1)).stopped = stopTick dur fs n := by
        simp [vitals_state, vitals_next, h, hi, stopTick]
      rw [hstep]
      constructor
      · intro hs
        exact ⟨n, Nat.lt_succ_self n, hs⟩
      · rintro ⟨j, hj, hsj⟩
        rcases Nat.lt_succ_iff_lt_or_eq.mp hj with hj' | rfl
        · exact absurd (ih.mpr ⟨j, hj', hsj⟩) h
        · exact hsj

lemma vitals_pull_isSome_iff (tn : TemplateNoise) (dur : Option ℤ) (fs : ℚ) (g : RNG) (n : ℕ) :
    (vitals_pull tn dur fs g n).isSome = true ↔ ∀ j < n, stopTick dur fs j = false := by
  unfold vitals_pull vitals_next
  by_cases h : (vitals_state tn dur fs g n).stopped = true
  · simp only [h, if_true, Option.map_none', Option.isSome_none]
    simp only [Bool.false_eq_true, false_iff, not_forall]
    obtain ⟨j, hj, hsj⟩ := (vitals_state_stopped_iff tn dur fs g n).mp h
    exact ⟨j, hj, by simp [hsj]⟩
  · rw [Bool.not_eq_true] at h
    simp only [h, Bool.false_eq_true, if_false, Option.map_some', Option.isSome_some, true_iff]
    intro j hj
    by_contra hcon
    rw [Bool.not_eq_false] at hcon
    have := (vitals_state_stopped_iff tn dur fs g n).mpr ⟨j, hj, hcon⟩
    rw [h] at this
    exact Bool.false_ne_true this

lemma vitals_pull_running (tn : TemplateNoise) (dur : Option ℤ) (fs : ℚ) (g : RNG) (n : ℕ)
    (h : ∀ j < n, stopTick dur fs j = false) :
    vitals_pull tn dur fs g n =
      some (vitals_bundle tn fs n (vitals_state tn dur fs g n).g).1 := by
  have hstop : ¬(vitals_state tn dur fs g n).stopped = true := by
    rw [vitals_state_stopped_iff]
    rintro ⟨j, hj, hsj⟩
    rw [h j hj] at hsj
    exact Bool.false_ne_true hsj
  have hi : (vitals_state tn dur fs g n).i = n :=
    (vitals_state_i_or_stopped tn dur fs g n).resolve_left hstop
  rw [Bool.not_eq_true] at hstop
  unfold vitals_pull vitals_next
  simp [hstop, hi]

lemma vitals_pull_some_ex {tn : TemplateNoise} {dur : Option ℤ} {fs : ℚ} {g : RNG} {n : ℕ}
    {b : Bundle} (h : vitals_pull tn dur fs g n = some b) :
    ∃ i gr, b = (vitals_bundle tn fs i gr).1 := by
  unfold vitals_pull vitals_next at h
  by_cases hs : (vitals_state tn dur fs g n).stopped = true
  · simp [hs] at h
  · rw [Bool.not_eq_true] at hs
    simp only [hs, Bool.false_eq_true, if_false, Option.map_some', Option.some_inj] at h
    exact ⟨(vitals_state tn dur fs g n).i, (vitals_state tn dur fs g n).g, h.symm⟩

/-- An unbounded stream never sets the break flag. -/
lemma stopTick_none (fs : ℚ) (j : ℕ) : stopTick none fs j = false := by
  simp [stopTick, durStop]

/-- `duration = 0` is falsy in the break test, exactly like `None`. -/
lemma stopTick_zero (fs : ℚ) (j : ℕ) : stopTick (some 0) fs j = false := by
  simp [stopTick, durStop]

/-- The third pull of the reference stream is `some bundle0`. -/
lemma bundle0_pull : vitals_pull tn0 none 1 rng0 2 = some (bundle0) := by
  have h := vitals_pull_running tn0 none 1 rng0 2 (fun j _ => stopTick_none 1 j)
  rw [bundle0, h]
  rfl

/-! ### List slice lemmas -/

lemma getD_of_lt (l : List ℝ) (n : ℕ) (h : n < l.length) : l.getD n 0 = l[n] := by
  simp [List.getD_eq_getElem?_getD, List.getElem?_eq_getElem h]

lemma rollSlice_getD (tmpl : List ℝ) (shift r j : ℕ) (hr : r ≤ tmpl.length) (hj : j < r) :
    (rollSlice tmpl shift r).getD j 0 = tmpl.getD ((j + shift) % tmpl.length) 0 := by
  have h0 : 0 < tmpl.length := lt_of_le_of_lt (Nat.zero_le j) (lt_of_lt_of_le hj hr)
  have hlen : (rollSlice tmpl shift r).length = r := rollSlice_length tmpl shift r hr
  have hjlen : j < (rollSlice tmpl shift r).length := by rw [hlen]; exact hj
  rw [getD_of_lt _ _ hjlen]
  have hmod : (j + shift) % tmpl.length < tmpl.length := Nat.mod_lt _ h0
  rw [getD_of_lt _ _ hmod]
  simp only [rollSlice]
  rw [List.getElem_take]
  rw [List.getElem_rotate]

lemma modSlice_length (tmpl : List ℝ) (i r : ℕ) : (modSlice tmpl i r).length = r := by
  simp [modSlice]

lemma modSlice_getD (tmpl : List ℝ) (i r j : ℕ) (hj : j < r) :
    (modSlice tmpl i r).getD j 0 = tmpl.getD ((i * r + j) % tmpl.length) 0 := by
  have hjl : j < (modSlice tmpl i r).length := (modSlice_length tmpl i r).symm ▸ hj
  rw [getD_of_lt _ _ hjl]
  simp [modSlice]

/-! ### Claim theorems -/

/-- C9: for every tick index `i`, channel rate `r` and template, the emitted
one-second slice implemented by rotating the template left by
`shift = (i * r) mod L` and truncating to `r` samples equals the
modular-offset read: sample `j` of the slice is `template[(i*r + j) mod L]`
for every `j < r`, and the whole slice equals `modSlice`. -/
theorem C9_slice_refinement (tmpl : List ℝ) (i r : ℕ) (hr : r ≤ tmpl.length) :
    rollSlice tmpl ((i * r) % tmpl.length) r = modSlice tmpl i r ∧
      ∀ j < r, (rollSlice tmpl ((i * r) % tmpl.length) r).getD j 0 =
        tmpl.getD ((i * r + j) % tmpl.length) 0 := by
  have hpt : ∀ j < r, (rollSlice tmpl ((i * r) % tmpl.length) r).getD j 0 =
      tmpl.getD ((i * r + j) % tmpl.length) 0 := by
    intro j hj
    rw [rollSlice_getD tmpl _ r j hr hj]
    congr 1
    conv_lhs => rw [Nat.add_mod]
    conv_rhs => rw [Nat.add_mod]
    rw [Nat.mod_mod, Nat.add_comm (j % tmpl.length)]
  refine ⟨?_, hpt⟩
  apply List.ext_getElem
  · rw [rollSlice_length tmpl _ r hr, modSlice_length]
  · intro n h1 h2
    have hn : n < r := by
      have := rollSlice_length tmpl ((i * r) % tmpl.length) r hr
      omega
    have e1 := hpt n hn
    have e2 := modSlice_getD tmpl i r n hn
    rw [getD_of_lt _ _ h1] at e1
    rw [getD_of_lt _ _ h2] at e2
    rw [e1, ← e2]

/-- Witness for C9 at the concrete template `[1, 2, 3]`, tick 3, rate 2. -/
theorem C9_slice_refinement_witness :
    2 ≤ ([1, 2, 3] : List ℝ).length ∧
      rollSlice [1, 2, 3] ((3 * 2) % ([1, 2, 3] : List ℝ).length) 2 =
        modSlice [1, 2, 3] 3 2 :=
  ⟨by norm_num, (C9_slice_refinement [1, 2, 3] 3 2 (by norm_num)).1⟩

/-- C7: every waveform channel of every returned bundle has length equal to
its channel sample rate times one second: ECG 250, PLETH 100, RESP 25,
ICP_WAVE 50. -/
theorem C7_waveform_lengths (tn : TemplateNoise) (dur : Option ℤ) (fs : ℚ) (g : RNG)
    (n : ℕ) (b : Bundle) (h : vitals_pull tn dur fs g n = some b) :
    b.ECG.length = 250 ∧ b.PLETH.length = 100 ∧ b.RESP.length = 25 ∧
      b.ICP_WAVE.length = 50 := by
  obtain ⟨i, gr, rfl⟩ := vitals_pull_some_ex h
  simp only [vitals_bundle]
  refine ⟨?_, ?_, ?_, ?_⟩
  · rw [rollSlice_length _ _ _ (by rw [ecg_template_length]; norm_num [ECG_FS])]
    rfl
  · rw [rollSlice_length _ _ _ (by rw [pleth_template_length]; norm_num [PLETH_FS])]
    rfl
  · rw [rollSlice_length _ _ _ (by rw [resp_template_length]; norm_num [RESP_FS])]
    rfl
  · rw [rollSlice_length _ _ _ (by rw [icp_template_length]; norm_num [ICP_FS])]
    rfl

/-- Witness for C7 at the concrete third pull of the reference stream. -/
theorem C7_waveform_lengths_witness :
    vitals_pull tn0 none 1 rng0 2 = some bundle0 ∧ bundle0.ECG.length = 250 ∧
      bundle0.PLETH.length = 100 ∧ bundle0.RESP.length = 25 ∧
      bundle0.ICP_WAVE.length = 50 :=
  ⟨bundle0_pull, (C7_waveform_lengths tn0 none 1 rng0 2 bundle0 bundle0_pull).1,
    (C7_waveform_lengths tn0 none 1 rng0 2 bundle0 bundle0_pull).2.1,
    (C7_waveform_lengths tn0 none 1 rng0 2 bundle0 bundle0_pull).2.2.1,
    (C7_waveform_lengths tn0 none 1 rng0 2 bundle0 bundle0_pull).2.2.2⟩

/-- C8: every bundle produced by the generator (outside any crisis
override) carries scalars, as returned after rounding to one decimal,
inside the baseline clamp ranges HR [89,95], SBP [120,135], DBP [80,89],
RR [14,18], SpO2 [96,98], ICP [5,12]. -/
theorem C8_baseline_ranges (tn : TemplateNoise) (dur : Option ℤ) (fs : ℚ) (g : RNG)
    (n : ℕ) (b : Bundle) (h : vitals_pull tn dur fs g n = some b) :
    (89 ≤ b.HR ∧ b.HR ≤ 95) ∧ (120 ≤ b.SBP ∧ b.SBP ≤ 135) ∧
      (80 ≤ b.DBP ∧ b.DBP ≤ 89) ∧ (14 ≤ b.RR ∧ b.RR ≤ 18) ∧
      (96 ≤ b.SpO2 ∧ b.SpO2 ≤ 98) ∧ (5 ≤ b.ICP ∧ b.ICP ≤ 12) := by
  obtain ⟨i, gr, rfl⟩ := vitals_pull_some_ex h
  exact vitals_bundle_scalars tn fs i gr

/-- Witness for C8 at the concrete third pull of the reference stream. -/
theorem C8_baseline_ranges_witness :
    vitals_pull tn0 none 1 rng0 2 = some bundle0 ∧
      89 ≤ bundle0.HR ∧ bundle0.HR ≤ 95 ∧ 5 ≤ bundle0.ICP ∧ bundle0.ICP ≤ 12 :=
  ⟨bundle0_pull, (C8_baseline_ranges tn0 none 1 rng0 2 bundle0 bundle0_pull).1.1,
    (C8_baseline_ranges tn0 none 1 rng0 2 bundle0 bundle0_pull).1.2,
    (C8_baseline_ranges tn0 none 1 rng0 2 bundle0 bundle0_pull).2.2.2.2.2.1,
    (C8_baseline_ranges tn0 none 1 rng0 2 bundle0 bundle0_pull).2.2.2.2.2.2⟩

/-- With `duration = 0` the break test never fires, for any random source. -/
lemma vitals_state_zero_dur (tn : TemplateNoise) (fs : ℚ) (g : RNG) :
    ∀ n, vitals_state tn (some 0) fs g n = vitals_state tn none fs g n := by
  intro n
  induction n with
  | zero => rfl
  | succ n ih =>
    simp only [vitals_state, ih]
    unfold vitals_next
    by_cases h : (vitals_state tn none fs g n).stopped = true
    · simp [h]
    · rw [Bool.not_eq_true] at h
      simp [h, durStop]

/-- C10: a stream constructed with `duration = 0` (not `None`) is unbounded:
every pull yields a bundle — it behaves identically to the unbounded
stream — because Python's `if duration and ...` treats `0` as falsy. -/
theorem C10_zero_duration (tn : TemplateNoise) (fs : ℚ) (g : RNG) (n : ℕ) :
    (vitals_pull tn (some 0) fs g n).isSome = true ∧
      vitals_pull tn (some 0) fs g n = vitals_pull tn none fs g n := by
  constructor
  · exact (vitals_pull_isSome_iff tn (some 0) fs g n).mpr fun j _ => stopTick_zero fs j
  · unfold vitals_pull
    rw [vitals_state_zero_dur]
    unfold vitals_next
    by_cases h : (vitals_state tn none fs g n).stopped = true
    · simp [h]
    · rw [Bool.not_eq_true] at h
      simp [h]

/-- C5 (amended): the generator is a deterministic function of its random
source: two streams whose random sources have identical draw sequences and
cursors produce identical pull sequences (so a reset that restores the
same seed state reproduces bit-identical bundles). -/
theorem C5_seed_determinism (tn : TemplateNoise) (dur : Option ℤ) (fs : ℚ)
    (g1 g2 : RNG) (hpos : g1.pos = g2.pos) (hdraws : ∀ k, g1.draws k = g2.draws k)
    (n : ℕ) : vitals_pull tn dur fs g1 n = vitals_pull tn dur fs g2 n := by
  have hg : g1 = g2 := by
    cases g1 with
    | mk d1 p1 =>
      cases g2 with
      | mk d2 p2 =>
        simp only at hpos hdraws
        rw [funext hdraws, hpos]
  rw [hg]

/-- Witness for C5's amended determinism at a concrete pair of sources. -/
theorem C5_seed_determinism_witness :
    vitals_pull tn0 none 1 rng0 3 = vitals_pull tn0 none 1 ⟨fun _ => 0, 0⟩ 3 :=
  C5_seed_determinism tn0 none 1 rng0 ⟨fun _ => 0, 0⟩ rfl (fun _ => rfl) 3

/-- C5 counterexample to the claim as stated: `vitals_stream` has no
`random_seed` parameter — its random source is fresh OS entropy on every
construction — so two runs of the "same" stream are two runs with whatever
draw sequences the entropy gave them, and those runs need not agree: with
draw sequence all-0 versus all-1 the very first pulled HR differs. -/
theorem C5_counterexample :
    (vitals_pull tn0 none 1 rng0 0).map Bundle.HR ≠
      (vitals_pull tn0 none 1 rng1 0).map Bundle.HR := by
  rw [vitals_pull_running tn0 none 1 rng0 0 (fun j _ => stopTick_none 1 j),
    vitals_pull_running tn0 none 1 rng1 0 (fun j _ => stopTick_none 1 j)]
  simp only [Option.map_some', ne_eq, Option.some_inj]
  unfold vitals_bundle
  simp only [RNG.normal, RNG.next]
  norm_num [vitals_state, rng0, rng1, clip, round1, roundHalfEven, Int.fract]

/-- Before tick 4 the break test of `duration=5, fs=1` does not fire. -/
lemma stopTick_five (j : ℕ) (hj : j < 4) : stopTick (some 5) 1 j = false := by
  simp only [stopTick, durStop, decide_eq_false_iff_not, not_and, not_le]
  intro _
  have hle : (j : ℚ) ≤ 3 := by exact_mod_cast Nat.lt_succ_iff.mp hj
  norm_num
  linarith

/-- C6: with a bounded duration `d`, a pull yields a bundle exactly as long
as no earlier tick `j` satisfied the break test `t + step ≥ d` (so the
tick that satisfies it is the last bundle, and only the subsequent pull
signals end of stream); concretely with `tick_rate 1, duration 5` the
pulls at 0..4 yield bundles with `elapsed_s = 0.0 .. 4.0` and the sixth
pull yields `EndOfStream`. -/
theorem C6_termination (tn : TemplateNoise) (d : ℤ) (fs : ℚ) (g : RNG) :
    (∀ n : ℕ, ((vitals_pull tn (some d) fs g n).isSome = true ↔
        ∀ j < n, ¬(d ≠ 0 ∧ (j : ℚ) * (1 / fs) + 1 / fs ≥ (d : ℚ)))) ∧
      (∀ m < 5, (vitals_pull tn (some 5) 1 g m).map Bundle.elapsed_s = some (m : ℚ)) ∧
      vitals_pull tn (some 5) 1 g 5 = none := by
  refine ⟨?_, ?_, ?_⟩
  · intro n
    rw [vitals_pull_isSome_iff]
    refine forall_congr' fun j => imp_congr_right fun _ => ?_
    simp [stopTick, durStop]
  · intro m hm
    rw [vitals_pull_running tn (some 5) 1 g m
      (fun j hj => stopTick_five j (by omega))]
    simp only [Option.map_some', vitals_bundle, Option.some_inj]
    have ht : (m : ℚ) * (1 / 1) = ((m : ℕ) : ℚ) := by norm_num
    rw [ht, round1_natCast]
  · have hns : ¬(vitals_pull tn (some 5) 1 g 5).isSome = true := by
      rw [vitals_pull_isSome_iff]
      intro hall
      have h4 := hall 4 (by norm_num)
      rw [show stopTick (some 5) 1 4 = true by norm_num [stopTick, durStop]] at h4
      simp at h4
    exact Option.not_isSome_iff_eq_none.mp hns

/-- Witness for C6 at a concrete pull of the bounded reference stream. -/
theorem C6_termination_witness :
    (3 : ℕ) < 5 ∧
      (vitals_pull tn0 (some 5) 1 rng0 3).map Bundle.elapsed_s = some ((3 : ℕ) : ℚ) ∧
      vitals_pull tn0 (some 5) 1 rng0 5 = none :=
  ⟨by norm_num, (C6_termination tn0 5 1 rng0).2.1 3 (by norm_num),
    (C6_termination tn0 5 1 rng0).2.2⟩

/-- C4 counterexample: a repeated trigger while the crisis is already
active does have a side effect — it re-records the activation time
(here from 0 to 10), and thereby extends the window: at time 65 the
original state would have expired, the re-triggered state still
overrides. -/
theorem C4_counterexample :
    (trigger_crisis true 10 ⟨true, 0⟩).icp_timer ≠ (⟨true, 0⟩ : CrisisState).icp_timer ∧
      (icp_override (trigger_crisis true 10 ⟨true, 0⟩) 65 z0 bundle0).1.icp_active = true ∧
      (icp_override ⟨true, 0⟩ 65 z0 bundle0).1.icp_active = false := by
  refine ⟨?_, ?_, ?_⟩ <;> norm_num [trigger_crisis, icp_override]

/-- C4 (amended): while the stream is running, every trigger request —
including one issued while the crisis is already active — sets the state
to active and re-records the activation time as the current time,
restarting the 60-second window. -/
theorem C4_retrigger (now : ℚ) (s : CrisisState) :
    trigger_crisis true now s = ⟨true, now⟩ := by
  simp [trigger_crisis]

/-- C3 counterexample: the crisis override applies no floor clamp — with
an HR draw of -10 standard deviations the overridden HR is
34 + 0.5·(-10) = 29 < 30, and with an SpO2 draw of +20 the overridden
SpO2 is 98 + 0.2·20 = 102 > 100. -/
theorem C3_counterexample :
    (icp_override ⟨true, 0⟩ 10 ⟨-10, 0, 0, 0, 20⟩ bundle0).2.HR < 30 ∧
      100 < (icp_override ⟨true, 0⟩ 10 ⟨-10, 0, 0, 0, 20⟩ bundle0).2.SpO2 := by
  norm_num [icp_override]

/-- C3 (amended): inside an active crisis window the five overridden
scalars are exactly the raw Gaussian samples `mu + sigma * z` — no
floor clamp or range clamp is applied to them. -/
theorem C3_crisis_unclamped (s : CrisisState) (now : ℚ) (z : CrisisDraws) (row : Bundle)
    (hact : s.icp_active = true) (hwin : now - s.icp_timer ≤ 60) :
    (icp_override s now z row).2.HR = 34 + 0.5 * z.hr ∧
      (icp_override s now z row).2.SBP = 190 + 3 * z.sbp ∧
      (icp_override s now z row).2.DBP = 105 + 2 * z.dbp ∧
      (icp_override s now z row).2.ICP = 45 + 1 * z.icp ∧
      (icp_override s now z row).2.SpO2 = 98 + 0.2 * z.spo2 := by
  simp [icp_override, hact, hwin]

/-- Witness for C3's amended statement at a concrete in-window state. -/
theorem C3_crisis_unclamped_witness :
    (⟨true, 0⟩ : CrisisState).icp_active = true ∧
      (10 : ℚ) - (⟨true, 0⟩ : CrisisState).icp_timer ≤ 60 ∧
      (icp_override ⟨true, 0⟩ 10 z0 bundle0).2.HR = 34 + 0.5 * z0.hr :=
  ⟨rfl, by norm_num,
    (C3_crisis_unclamped ⟨true, 0⟩ 10 z0 bundle0 rfl (by norm_num)).1⟩

/-- C2: while the crisis is active, a pull at most 60 seconds past the
recorded activation time has its HR, SBP, DBP, ICP, SpO2 replaced by the
crisis-distribution samples (state unchanged, RR untouched); the first
pull more than 60 seconds past it deactivates the crisis and returns the
generator bundle untouched, whose scalars lie in the baseline ranges. -/
theorem C2_crisis_window (tn : TemplateNoise) (dur : Option ℤ) (fs : ℚ) (g : RNG)
    (n : ℕ) (row : Bundle) (s : CrisisState) (now : ℚ) (z : CrisisDraws)
    (hrow : vitals_pull tn dur fs g n = some row) (hact : s.icp_active = true) :
    (now - s.icp_timer ≤ 60 →
      (icp_override s now z row).1 = s ∧
        (icp_override s now z row).2.HR = 34 + 0.5 * z.hr ∧
        (icp_override s now z row).2.SBP = 190 + 3 * z.sbp ∧
        (icp_override s now z row).2.DBP = 105 + 2 * z.dbp ∧
        (icp_override s now z row).2.ICP = 45 + 1 * z.icp ∧
        (icp_override s now z row).2.SpO2 = 98 + 0.2 * z.spo2 ∧
        (icp_override s now z row).2.RR = row.RR) ∧
      (60 < now - s.icp_timer →
        (icp_override s now z row).1.icp_active = false ∧
          (icp_override s now z row).2 = row ∧
          (89 ≤ row.HR ∧ row.HR ≤ 95) ∧ (120 ≤ row.SBP ∧ row.SBP ≤ 135) ∧
          (80 ≤ row.DBP ∧ row.DBP ≤ 89) ∧ (96 ≤ row.SpO2 ∧ row.SpO2 ≤ 98) ∧
          (5 ≤ row.ICP ∧ row.ICP ≤ 12)) := by
  obtain ⟨i, gr, hb⟩ := vitals_pull_some_ex hrow
  constructor
  · intro hwin
    simp [icp_override, hact, hwin]
  · intro hlate
    have hno : ¬(now - s.icp_timer ≤ 60) := not_le.mpr hlate
    have hs := vitals_bundle_scalars tn fs i gr
    rw [← hb] at hs
    simp only [icp_override, hact, if_true, hno, if_false]
    exact ⟨trivial, trivial, hs.1, hs.2.1, hs.2.2.1, hs.2.2.2.2.1, hs.2.2.2.2.2⟩

/-- Witness for C2 at a concrete pulled bundle, once inside the window
and once past it. -/
theorem C2_crisis_window_witness :
    vitals_pull tn0 none 1 rng0 2 = some bundle0 ∧
      (icp_override ⟨true, 0⟩ 10 z0 bundle0).2.HR = 34 + 0.5 * z0.hr ∧
      (icp_override ⟨true, 0⟩ 65 z0 bundle0).1.icp_active = false :=
  ⟨bundle0_pull,
    ((C2_crisis_window tn0 none 1 rng0 2 bundle0 ⟨true, 0⟩ 10 z0 bundle0_pull rfl).1
      (by norm_num)).2.1,
    ((C2_crisis_window tn0 none 1 rng0 2 bundle0 ⟨true, 0⟩ 65 z0 bundle0_pull rfl).2
      (by norm_num)).1⟩

/-! ### The shape of the served ICP pulse -/

lemma exp_neg_le_inv (x : ℝ) (hx : 0 ≤ x) : Real.exp (-x) ≤ (1 + x)⁻¹ := by
  rw [Real.exp_neg]
  apply inv_anti₀ (by linarith)
  linarith [Real.add_one_le_exp x]

/-- A Gaussian term whose exponent is at least `B` is at most `a / (1+B)`. -/
lemma gauss_le (a B y : ℝ) (ha : 0 ≤ a) (hB : 0 ≤ B) (hy : B ≤ y) :
    a * Real.exp (-y) ≤ a * (1 + B)⁻¹ := by
  apply mul_le_mul_of_nonneg_left _ ha
  calc Real.exp (-y) ≤ Real.exp (-B) := Real.exp_le_exp.mpr (by linarith)
    _ ≤ (1 + B)⁻¹ := exp_neg_le_inv B hB

lemma gauss_le_amp (a y : ℝ) (ha : 0 ≤ a) (hy : 0 ≤ y) : a * Real.exp (-y) ≤ a := by
  have h : Real.exp (-y) ≤ 1 := Real.exp_le_one_iff.mpr (by linarith)
  nlinarith

lemma sq_ge_of_le_neg {u c : ℝ} (hc : 0 ≤ c) (h : u ≤ -c) : c ^ 2 ≤ u ^ 2 := by
  nlinarith

lemma sq_ge_of_ge {u c : ℝ} (hc : 0 ≤ c) (h : c ≤ u) : c ^ 2 ≤ u ^ 2 := by
  nlinarith

/-- The sample at the P1 center (index 9, phase 0.18) is at least 12. -/
lemma icp_pulse_val_at_peak : 12 ≤ icp_pulse_val ((9 : ℝ) / 50) := by
  unfold icp_pulse_val
  have e1 : -((((9 : ℝ) / 50 - 0.18) / 0.04) ^ 2) = 0 := by norm_num
  rw [e1, Real.exp_zero]
  have h2 := Real.exp_pos (-((((9 : ℝ) / 50 - 0.45) / 0.06) ^ 2))
  have h3 := Real.exp_pos (-((((9 : ℝ) / 50 - 0.72) / 0.05) ^ 2))
  nlinarith

/-- Away from the P1 center the pulse value stays strictly below 12:
regional Gaussian-tail bounds on the three sub-peaks. -/
lemma icp_pulse_val_lt (x : ℝ) (_h0 : 0 ≤ x) (_h98 : x ≤ 0.98)
    (hne : x ≤ 0.16 ∨ 0.2 ≤ x) : icp_pulse_val x < 12 := by
  unfold icp_pulse_val
  rcases hne with hA | hB
  · -- left of P1 center: x ≤ 0.16
    have ht1 : 12 * Real.exp (-(((x - 0.18) / 0.04) ^ 2)) ≤ 48 / 5 := by
      have hsq : ((1 : ℝ) / 2) ^ 2 ≤ ((x - 0.18) / 0.04) ^ 2 :=
        sq_ge_of_le_neg (by norm_num)
          (by rw [div_le_iff₀ (by norm_num : (0 : ℝ) < 0.04)]; linarith)
      calc 12 * Real.exp (-(((x - 0.18) / 0.04) ^ 2)) ≤ 12 * (1 + ((1 : ℝ) / 2) ^ 2)⁻¹ :=
            gauss_le 12 _ _ (by norm_num) (by norm_num) hsq
        _ = 48 / 5 := by norm_num
    have ht2 : 8 * Real.exp (-(((x - 0.45) / 0.06) ^ 2)) ≤ 288 / 877 := by
      have hsq : ((29 : ℝ) / 6) ^ 2 ≤ ((x - 0.45) / 0.06) ^ 2 :=
        sq_ge_of_le_neg (by norm_num)
          (by rw [div_le_iff₀ (by norm_num : (0 : ℝ) < 0.06)]; linarith)
      calc 8 * Real.exp (-(((x - 0.45) / 0.06) ^ 2)) ≤ 8 * (1 + ((29 : ℝ) / 6) ^ 2)⁻¹ :=
            gauss_le 8 _ _ (by norm_num) (by norm_num) hsq
        _ = 288 / 877 := by norm_num
    have ht3 : 4 * Real.exp (-(((x - 0.72) / 0.05) ^ 2)) ≤ 100 / 3161 := by
      have hsq : ((56 : ℝ) / 5) ^ 2 ≤ ((x - 0.72) / 0.05) ^ 2 :=
        sq_ge_of_le_neg (by norm_num)
          (by rw [div_le_iff₀ (by norm_num : (0 : ℝ) < 0.05)]; linarith)
      calc 4 * Real.exp (-(((x - 0.72) / 0.05) ^ 2)) ≤ 4 * (1 + ((56 : ℝ) / 5) ^ 2)⁻¹ :=
            gauss_le 4 _ _ (by norm_num) (by norm_num) hsq
        _ = 100 / 3161 := by norm_num
    linarith
  · rcases le_or_lt x 0.32 with hB1 | hx1
    · -- right of P1 center, still in the first third: 0.2 ≤ x ≤ 0.32
      have ht1 : 12 * Real.exp (-(((x - 0.18) / 0.04) ^ 2)) ≤ 48 / 5 := by
        have hsq : ((1 : ℝ) / 2) ^ 2 ≤ ((x - 0.18) / 0.04) ^ 2 :=
          sq_ge_of_ge (by norm_num)
            (by rw [le_div_iff₀ (by norm_num : (0 : ℝ) < 0.04)]; linarith)
        calc 12 * Real.exp (-(((x - 0.18) / 0.04) ^ 2)) ≤ 12 * (1 + ((1 : ℝ) / 2) ^ 2)⁻¹ :=
              gauss_le 12 _ _ (by norm_num) (by norm_num) hsq
          _ = 48 / 5 := by norm_num
      have ht2 : 8 * Real.exp (-(((x - 0.45) / 0.06) ^ 2)) ≤ 288 / 205 := by
        have hsq : ((13 : ℝ) / 6) ^ 2 ≤ ((x - 0.45) / 0.06) ^ 2 :=
          sq_ge_of_le_neg (by norm_num)
            (by rw [div_le_iff₀ (by norm_num : (0 : ℝ) < 0.06)]; linarith)
        calc 8 * Real.exp (-(((x - 0.45) / 0.06) ^ 2)) ≤ 8 * (1 + ((13 : ℝ) / 6) ^ 2)⁻¹ :=
              gauss_le 8 _ _ (by norm_num) (by norm_num) hsq
          _ = 288 / 205 := by norm_num
      have ht3 : 4 * Real.exp (-(((x - 0.72) / 0.05) ^ 2)) ≤ 4 / 65 := by
        have hsq : ((8 : ℝ)) ^ 2 ≤ ((x - 0.72) / 0.05) ^ 2 :=
          sq_ge_of_le_neg (by norm_num)
            (by rw [div_le_iff₀ (by norm_num : (0 : ℝ) < 0.05)]; linarith)
        calc 4 * Real.exp (-(((x - 0.72) / 0.05) ^ 2)) ≤ 4 * (1 + ((8 : ℝ)) ^ 2)⁻¹ :=
              gauss_le 4 _ _ (by norm_num) (by norm_num) hsq
          _ = 4 / 65 := by norm_num
      linarith
    · rcases le_or_lt x 0.66 with hB2 | hx2
      · -- middle third (the P2 region): 0.32 < x ≤ 0.66
        have ht1 : 12 * Real.exp (-(((x - 0.18) / 0.04) ^ 2)) ≤ 48 / 53 := by
          have hsq : ((7 : ℝ) / 2) ^ 2 ≤ ((x - 0.18) / 0.04) ^ 2 :=
            sq_ge_of_ge (by norm_num)
              (by rw [le_div_iff₀ (by norm_num : (0 : ℝ) < 0.04)]; linarith)
          calc 12 * Real.exp (-(((x - 0.18) / 0.04) ^ 2)) ≤ 12 * (1 + ((7 : ℝ) / 2) ^ 2)⁻¹ :=
                gauss_le 12 _ _ (by norm_num) (by norm_num) hsq
            _ = 48 / 53 := by norm_num
        have ht2 : 8 * Real.exp (-(((x - 0.45) / 0.06) ^ 2)) ≤ 8 := by
          exact gauss_le_amp 8 _ (by norm_num) (sq_nonneg _)
        have ht3 : 4 * Real.exp (-(((x - 0.72) / 0.05) ^ 2)) ≤ 100 / 61 := by
          have hsq : ((6 : ℝ) / 5) ^ 2 ≤ ((x - 0.72) / 0.05) ^ 2 :=
            sq_ge_of_le_neg (by norm_num)
              (by rw [div_le_iff₀ (by norm_num : (0 : ℝ) < 0.05)]; linarith)
          calc 4 * Real.exp (-(((x - 0.72) / 0.05) ^ 2)) ≤ 4 * (1 + ((6 : ℝ) / 5) ^ 2)⁻¹ :=
                gauss_le 4 _ _ (by norm_num) (by norm_num) hsq
            _ = 100 / 61 := by norm_num
        linarith
      · -- last third (the P3 region): 0.66 < x ≤ 0.98
        have ht1 : 12 * Real.exp (-(((x - 0.18) / 0.04) ^ 2)) ≤ 12 / 145 := by
          have hsq : ((12 : ℝ)) ^ 2 ≤ ((x - 0.18) / 0.04) ^ 2 :=
            sq_ge_of_ge (by norm_num)
              (by rw [le_div_iff₀ (by norm_num : (0 : ℝ) < 0.04)]; linarith)
          calc 12 * Real.exp (-(((x - 0.18) / 0.04) ^ 2)) ≤ 12 * (1 + ((12 : ℝ)) ^ 2)⁻¹ :=
                gauss_le 12 _ _ (by norm_num) (by norm_num) hsq
            _ = 12 / 145 := by norm_num
        have ht2 : 8 * Real.exp (-(((x - 0.45) / 0.06) ^ 2)) ≤ 32 / 53 := by
          have hsq : ((7 : ℝ) / 2) ^ 2 ≤ ((x - 0.45) / 0.06) ^ 2 :=
            sq_ge_of_ge (by norm_num)
              (by rw [le_div_iff₀ (by norm_num : (0 : ℝ) < 0.06)]; linarith)
          calc 8 * Real.exp (-(((x - 0.45) / 0.06) ^ 2)) ≤ 8 * (1 + ((7 : ℝ) / 2) ^ 2)⁻¹ :=
                gauss_le 8 _ _ (by norm_num) (by norm_num) hsq
            _ = 32 / 53 := by norm_num
        have ht3 : 4 * Real.exp (-(((x - 0.72) / 0.05) ^ 2)) ≤ 4 := by
          exact gauss_le_amp 4 _ (by norm_num) (sq_nonneg _)
        linarith

lemma icp_pulse_getD (k : ℕ) (hk : k < 50) :
    icp_pulse.getD k 0 = icp_pulse_val ((k : ℝ) / 50) := by
  have hlen : k < icp_pulse.length := by rw [icp_pulse_length]; exact hk
  rw [getD_of_lt _ _ hlen]
  simp [icp_pulse, ICP_FS]

/-- Every sample of the served pulse other than index 9 is strictly
smaller than the sample at index 9 (the P1 center). -/
lemma icp_pulse_lt_peak (j : ℕ) (hj : j < 50) (hne : j ≠ 9) :
    icp_pulse.getD j 0 < icp_pulse.getD 9 0 := by
  rw [icp_pulse_getD j hj, icp_pulse_getD 9 (by norm_num)]
  have hpeak := icp_pulse_val_at_peak
  have hlt : icp_pulse_val ((j : ℝ) / 50) < 12 := by
    apply icp_pulse_val_lt
    · positivity
    · have : (j : ℝ) ≤ 49 := by exact_mod_cast Nat.lt_succ_iff.mp hj
      linarith
    · rcases Nat.lt_or_ge j 9 with h | h
      · left
        have : (j : ℝ) ≤ 8 := by exact_mod_cast Nat.lt_succ_iff.mp h
        linarith
      · right
        have h10 : 10 ≤ j := by omega
        have : (10 : ℝ) ≤ (j : ℝ) := by exact_mod_cast h10
        linarith
  linarith

/-- Reading a `c`-fold tiled buffer at `m` is reading the tile at
`m mod tile_length`. -/
lemma replicate_flatten_getD (p : List ℝ) (c : ℕ) :
    ∀ m, m < c * p.length →
      ((List.replicate c p).flatten).getD m 0 = p.getD (m % p.length) 0 := by
  induction c with
  | zero => intro m hm; simp at hm
  | succ c ih =>
    intro m hm
    rw [List.replicate_succ, List.flatten_cons]
    by_cases h : m < p.length
    · have hlen : m < (p ++ (List.replicate c p).flatten).length := by
        rw [List.length_append]
        omega
      rw [getD_of_lt _ _ hlen, Nat.mod_eq_of_lt h, getD_of_lt p m h]
      exact List.getElem_append_left h
    · push_neg at h
      have hp : 0 < p.length := by
        rcases Nat.eq_zero_or_pos p.length with h0 | h0
        · rw [h0] at hm; simp at hm
        · exact h0
      have hm2 : m - p.length < c * p.length := by
        have hexp : (c + 1) * p.length = c * p.length + p.length := Nat.succ_mul c p.length
        omega
      have key := ih (m - p.length) hm2
      have hmod : m % p.length = (m - p.length) % p.length := by
        conv_lhs => rw [show m = m - p.length + p.length from (Nat.sub_add_cancel h).symm]
        rw [Nat.add_mod_right]
      have hlenflat : ((List.replicate c p).flatten).length = c * p.length := by
        simp [List.length_flatten, List.map_replicate, Nat.mul_comm]
      have hlenL : m < (p ++ (List.replicate c p).flatten).length := by
        rw [List.length_append, hlenflat]
        have hexp : (c + 1) * p.length = c * p.length + p.length := Nat.succ_mul c p.length
        omega
      have hlt2 : m - p.length < ((List.replicate c p).flatten).length := by
        rw [hlenflat]; exact hm2
      rw [getD_of_lt _ _ hlenL, hmod, ← key, getD_of_lt _ _ hlt2]
      exact List.getElem_append_right h

/-- Reading the 5-fold tiled ICP template at `m < 250` reads the pulse at
`m mod 50`. -/
lemma icp_template_getD (m : ℕ) (hm : m < 250) :
    icp_template.getD m 0 = icp_pulse.getD (m % 50) 0 := by
  have h5 : m < 5 * icp_pulse.length := by rw [icp_pulse_length]; omega
  have hexp : icp_template = (List.replicate 5 icp_pulse).flatten := rfl
  rw [hexp, replicate_flatten_getD icp_pulse 5 m h5, icp_pulse_length]

set_option maxRecDepth 4000 in
/-- Because the ICP template is the one-second pulse tiled five times and
the per-tick shift `(i * 50) mod 250` is always a multiple of the pulse
length, the emitted ICP waveform slice of every tick is the pulse itself. -/
lemma icp_wave_eq_pulse (tn : TemplateNoise) (fs : ℚ) (i : ℕ) (g : RNG) :
    (vitals_bundle tn fs i g).1.ICP_WAVE = icp_pulse := by
  simp only [vitals_bundle]
  have hr : ICP_FS ≤ icp_template.length := by
    rw [icp_template_length]; norm_num [ICP_FS]
  apply List.ext_getElem
  · rw [rollSlice_length _ _ _ hr, icp_pulse_length]
    rfl
  · intro n h1 h2
    have hn : n < 50 := by rwa [icp_pulse_length] at h2
    have hnF : n < ICP_FS := hn
    have e1 := rollSlice_getD icp_template ((i * ICP_FS) % icp_template.length)
      ICP_FS n hr hnF
    have harith :
        (n + (i * ICP_FS) % icp_template.length) % icp_template.length % 50 = n := by
      rw [icp_template_length]
      rw [Nat.mod_mod_of_dvd _ (by norm_num : (50 : ℕ) ∣ 250)]
      rw [Nat.add_mod, Nat.mod_mod_of_dvd _ (by norm_num : (50 : ℕ) ∣ 250)]
      rw [show ICP_FS = 50 from rfl, Nat.mul_mod_left]
      simp [Nat.mod_eq_of_lt hn]
    have hmlt : (n + (i * ICP_FS) % icp_template.length) % icp_template.length < 250 := by
      have := Nat.mod_lt (n + (i * ICP_FS) % icp_template.length)
        (show 0 < icp_template.length by rw [icp_template_length]; norm_num)
      rw [icp_template_length] at this
      exact this
    have e2 : icp_template.getD
        ((n + (i * ICP_FS) % icp_template.length) % icp_template.length) 0 =
        icp_pulse.getD n 0 := by
      rw [icp_template_getD _ hmlt, harith]
    rw [getD_of_lt _ _ h1] at e1
    rw [e1, e2, getD_of_lt _ _ h2]


/-- The maximum sample of the served pulse sits in the P1 third. -/
lemma icp_pulse_maxIn_P1 : maxIn icp_pulse 0 16 := by
  refine ⟨9, by norm_num, by norm_num, fun j hj => ?_⟩
  rw [icp_pulse_length] at hj
  by_cases h : j = 9
  · rw [h]
  · exact le_of_lt (icp_pulse_lt_peak j hj h)

/-- The maximum sample of the served pulse does not sit in the P2 third:
the P1-center sample strictly dominates every P2-third sample. -/
lemma icp_pulse_not_maxIn_P2 : ¬ maxIn icp_pulse 17 33 := by
  rintro ⟨m, hm17, hm33, hall⟩
  have hm50 : m < 50 := by omega
  have h9 := hall 9 (by rw [icp_pulse_length]; norm_num)
  have hlt := icp_pulse_lt_peak m hm50 (by omega)
  linarith

/-- C1 counterexample: pull the tick-2 bundle, trigger the crisis at time
0 and apply the override at time 10 (inside the window); the returned
bundle's ICP waveform does NOT have its maximum in the P2 sub-interval —
the override never touches the waveform, which keeps the normal
P1-tallest pulse shape. -/
theorem C1_counterexample :
    ¬ maxIn ((icp_override ⟨true, 0⟩ 10 z0 bundle0).2.ICP_WAVE) 17 33 := by
  have hW : bundle0.ICP_WAVE = icp_pulse := by
    obtain ⟨i, gr, hb⟩ := vitals_pull_some_ex bundle0_pull
    rw [hb]
    exact icp_wave_eq_pulse tn0 1 i gr
  have hwave : (icp_override ⟨true, 0⟩ 10 z0 bundle0).2.ICP_WAVE = icp_pulse := by
    rw [← hW]
    norm_num [icp_override]
  rw [hwave]
  exact icp_pulse_not_maxIn_P2

/-- C1 (amended): while a crisis is active and within its 60-second
window, the ICP waveform slice of a returned bundle is left unchanged by
the override; it is the baseline one-second pulse, whose maximum sample
occurs in the P1-position sub-interval (indices 0..16), not in the
P2-position sub-interval (indices 17..33). -/
theorem C1_crisis_wave (tn : TemplateNoise) (dur : Option ℤ) (fs : ℚ) (g : RNG)
    (n : ℕ) (b : Bundle) (s : CrisisState) (now : ℚ) (z : CrisisDraws)
    (hb : vitals_pull tn dur fs g n = some b) (hact : s.icp_active = true)
    (hwin : now - s.icp_timer ≤ 60) :
    (icp_override s now z b).2.ICP_WAVE = b.ICP_WAVE ∧ b.ICP_WAVE = icp_pulse ∧
      maxIn ((icp_override s now z b).2.ICP_WAVE) 0 16 ∧
      ¬ maxIn ((icp_override s now z b).2.ICP_WAVE) 17 33 := by
  have hW : b.ICP_WAVE = icp_pulse := by
    obtain ⟨i, gr, hbb⟩ := vitals_pull_some_ex hb
    rw [hbb]
    exact icp_wave_eq_pulse tn fs i gr
  have hkeep : (icp_override s now z b).2.ICP_WAVE = b.ICP_WAVE := by
    simp [icp_override, hact, hwin]
  refine ⟨hkeep, hW, ?_, ?_⟩
  · rw [hkeep, hW]
    exact icp_pulse_maxIn_P1
  · rw [hkeep, hW]
    exact icp_pulse_not_maxIn_P2

/-- Witness for C1's amended statement at the concrete tick-2 bundle with
a crisis triggered at time 0 and pulled at time 10. -/
theorem C1_crisis_wave_witness :
    vitals_pull tn0 none 1 rng0 2 = some bundle0 ∧
      (⟨true, 0⟩ : CrisisState).icp_active = true ∧
      (10 : ℚ) - (⟨true, 0⟩ : CrisisState).icp_timer ≤ 60 ∧
      (icp_override ⟨true, 0⟩ 10 z0 bundle0).2.ICP_WAVE = bundle0.ICP_WAVE ∧
      maxIn ((icp_override ⟨true, 0⟩ 10 z0 bundle0).2.ICP_WAVE) 0 16 :=
  ⟨bundle0_pull, rfl, by norm_num,
    (C1_crisis_wave tn0 none 1 rng0 2 bundle0 ⟨true, 0⟩ 10 z0 bundle0_pull rfl
      (by norm_num)).1,
    (C1_crisis_wave tn0 none 1 rng0 2 bundle0 ⟨true, 0⟩ 10 z0 bundle0_pull rfl
      (by norm_num)).2.2.1⟩

end Sim
